import Mathlib

/-!
Verification of the `rm-ids` repository: a two-stage batch pipeline that
extracts live UK postcodes from a reference CSV (`extract_postcodes.py`) and
resolves each postcode to an external identifier through a lookup service,
checkpointing results to a CSV mapping file (`postcode_mapper.py`).

The Python source is shallowly embedded:

* Python values that can flow out of `matches[0].get("id")` are modelled by
  `PyVal` (`None`, strings, integers) together with Python truthiness.
* The JSON response of the lookup service is modelled by `LookupOutcome`:
  either a transport failure (a `requests.RequestException` raised after the
  session's retry policy is exhausted) or a parsed body carrying an optional
  `matches` array.  A deterministic service is a function from postcode
  strings to outcomes.
* CSV files are modelled as lists of rows, each row a list of cell strings;
  `csv.writer.writerow` stringifies each field (`pyStr`).
* The Python `dict` is modelled as an association list in insertion order;
  `dictInsert` overwrites in place when the key exists and appends otherwise.
* `main`'s loop is a fold of `processPostcode` over the postcode list; the
  state records the mapping, the `fetched` counter, the pending write buffer
  and the rows of the on-disk CSV file.  Two ghost fields (`fetchLog`,
  `noIdLog`) record which postcodes `fetch_postcode_id` was invoked for and
  which produced the "No ID found" log line; they influence nothing.
-/

/-- A Python value as it appears in the `id` field of a lookup match:
`None`, a string, or an integer. -/
inductive PyVal where
  | none : PyVal
  | str (s : String) : PyVal
  | int (n : Int) : PyVal
deriving DecidableEq

/-- Python truthiness of a `PyVal`: `None`, `""` and `0` are falsy. -/
def PyVal.truthy : PyVal → Bool
  | .none => false
  | .str s => s ≠ ""
  | .int n => n ≠ 0

/-- Python `str()` of a `PyVal`, as applied by `csv.writer` to each field. -/
def pyStr : PyVal → String
  | .none => "None"
  | .str s => s
  | .int n => toString n

/-- Python `str.strip()`: drop leading and trailing whitespace.  Written
over the character list so that it evaluates by kernel reduction. -/
def pyStrip (s : String) : String :=
  String.mk (((s.data.dropWhile Char.isWhitespace).reverse.dropWhile
    Char.isWhitespace).reverse)

/-- One element of the JSON `matches` array: a dict whose `id` field may be
absent (`matches[0].get("id")` then yields `None`). -/
structure MatchEntry where
  id : Option PyVal
deriving DecidableEq

/-- Outcome of one lookup request for a postcode, after the session's own
retry handling: a transport failure (`requests.RequestException`), or a JSON
body whose `matches` key may be absent (`data.get("matches", [])`). -/
inductive LookupOutcome where
  | failure : LookupOutcome
  | success (matchArr : Option (List MatchEntry)) : LookupOutcome
deriving DecidableEq

/-- A deterministic lookup service: the response to `GET BASE_URL?query=p`. -/
abbrev Service := String → LookupOutcome

/-- Association-list lookup with string keys, modelling `dict.__getitem__`
(`none` = key absent). -/
def alookup {β : Type} : List (String × β) → String → Option β
  | [], _ => Option.none
  | e :: rest, k => if e.1 = k then some e.2 else alookup rest k

/-- The keys of an association list, in order. -/
def akeys {β : Type} (l : List (String × β)) : List String :=
  l.map Prod.fst

/-- Python `dict` assignment `m[k] = v`: overwrite in place when the key is
present, append otherwise (insertion order semantics). -/
def dictInsert {β : Type} (m : List (String × β)) (k : String) (v : β) :
    List (String × β) :=
  if (alookup m k).isSome then
    m.map (fun e => if e.1 = k then (k, v) else e)
  else
    m ++ [(k, v)]

/-- Source: `fetch_postcode_id(postcode, session)`.  Transport failure gives
`None`; otherwise `matches = data.get("matches", [])`, and a non-empty list
returns `matches[0].get("id")`, an empty one returns `None`. -/
def fetch_postcode_id (service : Service) (postcode : String) : PyVal :=
  match service postcode with
  | .failure => .none
  | .success data =>
    match data.getD [] with
    | [] => .none
    | m :: _ => m.id.getD .none

/-- The header row `postcode,id` written to the mapping CSV. -/
def csvHeader : List String := ["postcode", "id"]

/-- A buffered mapping entry rendered as a CSV row, as by
`writer.writerow([postcode, postcode_id])`. -/
def rowOf (e : String × PyVal) : List String :=
  [e.1, pyStr e.2]

/-- Source: `flush_buffer_to_csv(buffer, csv_file)` — append the buffered
rows to the file; an empty buffer appends nothing. -/
def flush_buffer_to_csv (buffer : List (String × PyVal))
    (fileRows : List (List String)) : List (List String) :=
  if buffer = [] then fileRows else fileRows ++ buffer.map rowOf

/-- Key order used by `sorted(mapping.items())`.  Python compares the
`(postcode, id)` tuples lexicographically, but the keys of a dict are
distinct, so the `id` components are never compared and ordering by the
postcode alone is faithful. -/
def keyLE {β : Type} (a b : String × β) : Prop := a.1 ≤ b.1

instance {β : Type} : DecidableRel (@keyLE β) :=
  fun a b => inferInstanceAs (Decidable (a.1 ≤ b.1))

instance {β : Type} : IsTotal (String × β) keyLE :=
  ⟨fun a b => le_total a.1 b.1⟩

instance {β : Type} : IsTrans (String × β) keyLE :=
  ⟨fun _ _ _ h1 h2 => le_trans h1 h2⟩

/-- Source: `write_sorted_csv(mapping, csv_file)` — rewrite the file from
scratch: the header, then one row per mapping entry sorted by postcode. -/
def write_sorted_csv (mapping : List (String × PyVal)) : List (List String) :=
  csvHeader :: (List.insertionSort keyLE mapping).map rowOf

/-- Loading an existing mapping file (`csv.DictReader` over `postcode,id`
rows): the first row is the header, each later row binds its first cell to
its second (`mapping[row["postcode"]] = row["id"]`); a missing `id` cell
reads as `None`.  Every file written by this program has exactly two cells
per row. -/
def loadRow (m : List (String × PyVal)) (row : List String) : List (String × PyVal) :=
  dictInsert m (row.getD 0 "")
    (match row.get? 1 with
     | some c => .str c
     | Option.none => .none)

/-- The fold of `loadRow` over the rows after the header. -/
def loadMapping (rows : List (List String)) : List (String × PyVal) :=
  match rows with
  | [] => []
  | _hdr :: body => body.foldl loadRow []

/-- Source: `postcodes = [line.strip() for line in f if line.strip()]`. -/
def readPostcodes (lines : List String) : List String :=
  (lines.filter (fun l => pyStrip l ≠ "")).map (fun l => pyStrip l)

/-- The mutable state of `main`'s loop.  `fileRows` is the current content of
`postcode-mapping.csv`.  `fetchLog` and `noIdLog` are ghost observations: the
postcodes passed to `fetch_postcode_id`, and those for which
`"No ID found"` was printed. -/
structure MapperState where
  mapping : List (String × PyVal)
  fetched : Nat
  writeBuffer : List (String × PyVal)
  fileRows : List (List String)
  fetchLog : List String
  noIdLog : List String
deriving DecidableEq

/-- One iteration of the `for i, postcode in enumerate(postcodes, 1)` loop:
skip mapped postcodes; otherwise fetch, record a truthy id in the mapping
and the write buffer (a falsy one only logs "No ID found"), and every 100th
fetch flush the buffer to the file and clear it. -/
def processPostcode (service : Service) (st : MapperState) (postcode : String) :
    MapperState :=
  if (alookup st.mapping postcode).isSome then st
  else
    let fetchedN := st.fetched + 1
    let pid := fetch_postcode_id service postcode
    let st1 :=
      if pid.truthy then
        { st with
          fetched := fetchedN
          fetchLog := st.fetchLog ++ [postcode]
          mapping := dictInsert st.mapping postcode pid
          writeBuffer := st.writeBuffer ++ [(postcode, pid)] }
      else
        { st with
          fetched := fetchedN
          fetchLog := st.fetchLog ++ [postcode]
          noIdLog := st.noIdLog ++ [postcode] }
    if fetchedN % 100 = 0 then
      { st1 with
        fileRows := flush_buffer_to_csv st1.writeBuffer st1.fileRows
        writeBuffer := [] }
    else
      st1

/-- The loop of `main` over the postcode list. -/
def runLoop (service : Service) (st : MapperState) (postcodes : List String) :
    MapperState :=
  postcodes.foldl (processPostcode service) st

/-- The state of `main` before the loop: when `postcode-mapping.csv` exists
its rows seed the mapping and remain on disk; otherwise a fresh file holding
only the header is created. -/
def initState (existing : Option (List (List String))) : MapperState :=
  match existing with
  | some rows =>
    { mapping := loadMapping rows
      fetched := 0
      writeBuffer := []
      fileRows := rows
      fetchLog := []
      noIdLog := [] }
  | Option.none =>
    { mapping := []
      fetched := 0
      writeBuffer := []
      fileRows := [csvHeader]
      fetchLog := []
      noIdLog := [] }

/-- Result of a complete run of `main`: the state after the loop and the
trailing flush, and the file as finally rewritten by `write_sorted_csv`. -/
structure RunResult where
  finalState : MapperState
  finalFile : List (List String)
deriving DecidableEq

/-- Source: `main()`.  `existing` is the content of `postcode-mapping.csv`
if it exists; `lines` are the lines of `postcodes.txt`.  After the loop the
remaining buffer is flushed, then the whole file is rewritten sorted. -/
def runMapper (service : Service) (existing : Option (List (List String)))
    (lines : List String) : RunResult :=
  let st0 := initState existing
  let st1 := runLoop service st0 (readPostcodes lines)
  let st2 :=
    { st1 with
      fileRows := flush_buffer_to_csv st1.writeBuffer st1.fileRows
      writeBuffer := [] }
  { finalState := st2, finalFile := write_sorted_csv st2.mapping }

/-- One record of the reference dataset as seen by `csv.DictReader` in
`extract_postcodes.py`: the `pcds` and `doterm` columns, `none` when the
column is absent from the row (`row.get(..., '')` then yields the default). -/
structure SrcRow where
  pcds : Option String
  doterm : Option String
deriving DecidableEq

/-- The body of the extractor's row loop: keep `row.get('pcds','').strip()`
when it is non-empty and `row.get('doterm','').strip()` is empty. -/
def keptPostcode (r : SrcRow) : Option String :=
  let postcode := pyStrip (r.pcds.getD "")
  let doterm := pyStrip (r.doterm.getD "")
  if postcode ≠ "" ∧ doterm = "" then some postcode else Option.none

/-- Source: `extract_postcodes.py` — collect kept postcodes into a set and
write them out sorted, one per line (`for postcode in sorted(postcodes)`).
The set is modelled as deduplication before sorting. -/
def extract_postcodes (rows : List SrcRow) : List String :=
  List.insertionSort (fun a b => a ≤ b) (rows.filterMap keptPostcode).dedup

/-- Source: the `# Retry configuration` constants of `postcode_mapper.py`. -/
def INITIAL_BACKOFF : Nat := 1

/-- Source: `MAX_BACKOFF = 60`. -/
def MAX_BACKOFF : Nat := 60

/-- Source: `BACKOFF_MULTIPLIER = 2`. -/
def BACKOFF_MULTIPLIER : Nat := 2

/-- The arguments passed to the `urllib3` `Retry` constructor.  A field is
`none` when `create_session` does not pass the corresponding keyword
argument, leaving the library default in force (for `backoff_max`, the
library default `DEFAULT_BACKOFF_MAX` is 120 seconds, not 60). -/
structure RetryArgs where
  total : Option Nat
  backoff_factor : Option Nat
  backoff_max : Option Nat
  status_forcelist : Option (List Nat)
  allowed_methods : Option (List String)
deriving DecidableEq

/-- The arguments passed to the `HTTPAdapter` constructor. -/
structure AdapterArgs where
  max_retries : RetryArgs
  pool_connections : Nat
  pool_maxsize : Nat
deriving DecidableEq

/-- The configuration of the session built by `create_session`: the adapter
mounted for both the `http://` and `https://` schemes. -/
structure SessionConfig where
  http_adapter : AdapterArgs
  https_adapter : AdapterArgs
deriving DecidableEq

/-- Source: `create_session()` — the retry strategy passes `total=3`,
`backoff_factor=INITIAL_BACKOFF`, `status_forcelist=[429, 500, 502, 503,
504]` and `allowed_methods=["GET"]`, and nothing else; in particular no
`backoff_max` argument is passed. -/
def create_session : SessionConfig :=
  let retry_strategy : RetryArgs :=
    { total := some 3
      backoff_factor := some INITIAL_BACKOFF
      backoff_max := Option.none
      status_forcelist := some [429, 500, 502, 503, 504]
      allowed_methods := some ["GET"] }
  let adapter : AdapterArgs :=
    { max_retries := retry_strategy
      pool_connections := 10
      pool_maxsize := 10 }
  { http_adapter := adapter, https_adapter := adapter }

/-! ### Proof-layer definitions -/

/-- The effect of one loop iteration on the `mapping` dictionary alone. -/
def mapStep (service : Service) (m : List (String × PyVal)) (p : String) :
    List (String × PyVal) :=
  if (alookup m p).isSome then m
  else if (fetch_postcode_id service p).truthy then
    dictInsert m p (fetch_postcode_id service p)
  else m

/-- In a run started with a fresh (header-only) file, the mapping is always
the flushed entries followed by the pending buffer, and the file holds the
header and the flushed entries in order. -/
def bufferFileInv (st : MapperState) : Prop :=
  ∃ fl : List (String × PyVal),
    st.mapping = fl ++ st.writeBuffer ∧ st.fileRows = csvHeader :: fl.map rowOf

/-- The entry a flushed entry becomes after the round trip through the CSV
file: the id comes back as the string `csv.writer` printed. -/
def strOfEntry (e : String × PyVal) : String × PyVal :=
  (e.1, PyVal.str (pyStr e.2))

/-- A mapping entry as the pair of cell strings `csv.writer` renders. -/
def cellOfEntry (e : String × PyVal) : String × String :=
  (e.1, pyStr e.2)

/-- A sample deterministic lookup service used by the concrete instances:
one postcode with a single match, one with two matches, one with an empty
`matches` array, one whose first match has a falsy id, one transport
failure. -/
def svcSample : Service := fun p =>
  if p = "AB1 2CD" then .success (some [⟨some (.str "99887")⟩])
  else if p = "SW1A 1AA" then .success (some [⟨some (.str "A")⟩, ⟨some (.str "B")⟩])
  else if p = "FALSY" then .success (some [⟨some (.str "")⟩])
  else if p = "FAIL" then .failure
  else .success (some [])

/-- A lookup service that finds no match for any postcode. -/
def svcNoMatch : Service := fun _ => .success (some [])

/-! ### Association-list lemmas -/

theorem alookup_cons {β : Type} (e : String × β) (l : List (String × β)) (k : String) :
    alookup (e :: l) k = if e.1 = k then some e.2 else alookup l k := rfl

theorem alookup_append {β : Type} (l1 l2 : List (String × β)) (k : String) :
    alookup (l1 ++ l2) k =
      if (alookup l1 k).isSome then alookup l1 k else alookup l2 k := by
  induction l1 with
  | nil => simp [alookup]
  | cons e l1 ih =>
    by_cases h : e.1 = k <;> simp [alookup, h, ih]

theorem alookup_isSome_iff {β : Type} (l : List (String × β)) (k : String) :
    (alookup l k).isSome = true ↔ k ∈ akeys l := by
  induction l with
  | nil => simp [alookup, akeys]
  | cons e l ih =>
    by_cases h : e.1 = k
    · simp [alookup, akeys, h]
    · have hne : k ≠ e.1 := fun hh => h hh.symm
      simp [alookup, akeys, h, hne, ih]

theorem alookup_eq_none_iff {β : Type} (l : List (String × β)) (k : String) :
    alookup l k = Option.none ↔ k ∉ akeys l := by
  rw [← alookup_isSome_iff]
  cases alookup l k <;> simp

theorem alookup_eq_some_of_mem {β : Type} {l : List (String × β)} {k : String} {v : β}
    (hnd : (akeys l).Nodup) (hmem : (k, v) ∈ l) : alookup l k = some v := by
  induction l with
  | nil => simp at hmem
  | cons e l ih =>
    rcases List.mem_cons.mp hmem with he | hl
    · rw [← he, alookup_cons, if_pos rfl]
    · have hk : k ∈ akeys l := List.mem_map.mpr ⟨(k, v), hl, rfl⟩
      have hne : e.1 ≠ k := by
        intro h
        exact (List.nodup_cons.mp hnd).1 (h ▸ hk)
      rw [alookup_cons, if_neg hne]
      exact ih (List.nodup_cons.mp hnd).2 hl

theorem mem_of_alookup_eq_some {β : Type} {l : List (String × β)} {k : String} {v : β}
    (h : alookup l k = some v) : (k, v) ∈ l := by
  induction l with
  | nil => simp [alookup] at h
  | cons e l ih =>
    rw [alookup_cons] at h
    by_cases he : e.1 = k
    · rw [if_pos he] at h
      have : (k, v) = e := by
        cases e
        simp only [Option.some.injEq] at h
        simp_all
      exact this ▸ List.mem_cons_self e l
    · exact List.mem_cons_of_mem e (ih (by rwa [if_neg he] at h))

theorem perm_alookup {β : Type} {l1 l2 : List (String × β)}
    (hperm : l1.Perm l2) (hnd : (akeys l1).Nodup) (k : String) :
    alookup l1 k = alookup l2 k := by
  have hnd2 : (akeys l2).Nodup := ((hperm.map Prod.fst).nodup_iff).mp hnd
  cases hv : alookup l1 k with
  | some v =>
    exact (alookup_eq_some_of_mem hnd2 (hperm.mem_iff.mp (mem_of_alookup_eq_some hv))).symm
  | none =>
    have : k ∉ akeys l2 := by
      intro hk
      have : k ∈ akeys l1 := ((hperm.map Prod.fst).mem_iff).mpr hk
      rw [← alookup_isSome_iff, hv] at this
      simp at this
    exact ((alookup_eq_none_iff l2 k).mpr this).symm

/-! ### dictInsert lemmas -/

theorem dictInsert_of_not_mem {β : Type} {m : List (String × β)} {k : String} (v : β)
    (h : (alookup m k).isSome = false) : dictInsert m k v = m ++ [(k, v)] := by
  simp [dictInsert, h]

theorem alookup_overwrite_self {β : Type} {m : List (String × β)} {k : String} (v : β)
    (h : k ∈ akeys m) :
    alookup (m.map (fun e => if e.1 = k then (k, v) else e)) k = some v := by
  induction m with
  | nil => simp [akeys] at h
  | cons e m ih =>
    by_cases he : e.1 = k
    · simp [alookup, he]
    · have hk : k ∈ akeys m := by
        rcases List.mem_cons.mp h with h1 | h2
        · exact absurd h1.symm he
        · exact h2
      simp [alookup, he, ih hk]

theorem alookup_overwrite_ne {β : Type} (m : List (String × β)) (k k' : String) (v : β)
    (h : k' ≠ k) :
    alookup (m.map (fun e => if e.1 = k then (k, v) else e)) k' = alookup m k' := by
  induction m with
  | nil => simp
  | cons e m ih =>
    by_cases he : e.1 = k
    · have : k ≠ k' := fun hh => h hh.symm
      simp [alookup, he, this, he ▸ this, ih]
    · simp only [List.map_cons, if_neg he, alookup_cons]
      rw [ih]

theorem alookup_dictInsert_self {β : Type} (m : List (String × β)) (k : String) (v : β) :
    alookup (dictInsert m k v) k = some v := by
  by_cases h : (alookup m k).isSome
  · rw [dictInsert, if_pos h]
    exact alookup_overwrite_self v ((alookup_isSome_iff m k).mp h)
  · rw [dictInsert, if_neg h, alookup_append,
      if_neg (by simp_all), alookup_cons, if_pos rfl]

theorem alookup_dictInsert_ne {β : Type} (m : List (String × β)) (k k' : String) (v : β)
    (h : k' ≠ k) : alookup (dictInsert m k v) k' = alookup m k' := by
  by_cases hm : (alookup m k).isSome
  · rw [dictInsert, if_pos hm, alookup_overwrite_ne m k k' v h]
  · rw [dictInsert, if_neg hm, alookup_append]
    by_cases h' : (alookup m k').isSome
    · rw [if_pos h']
    · rw [if_neg h', alookup_cons, if_neg (fun hh => h hh.symm)]
      exact (Option.not_isSome_iff_eq_none.mp h').symm

theorem akeys_overwrite {β : Type} (m : List (String × β)) (k : String) (v : β) :
    akeys (m.map (fun e => if e.1 = k then (k, v) else e)) = akeys m := by
  induction m with
  | nil => rfl
  | cons e m ih =>
    simp only [akeys, List.map_cons] at ih ⊢
    by_cases he : e.1 = k
    · rw [if_pos he, ih, he]
    · rw [if_neg he, ih]

theorem akeys_dictInsert_not_mem {β : Type} {m : List (String × β)} {k : String} (v : β)
    (h : (alookup m k).isSome = false) :
    akeys (dictInsert m k v) = akeys m ++ [k] := by
  rw [dictInsert_of_not_mem v h]
  simp [akeys]

theorem nodup_akeys_dictInsert {β : Type} {m : List (String × β)} (k : String) (v : β)
    (h : (akeys m).Nodup) : (akeys (dictInsert m k v)).Nodup := by
  by_cases hm : (alookup m k).isSome
  · rw [dictInsert, if_pos hm, akeys_overwrite]
    exact h
  · rw [akeys_dictInsert_not_mem v (by simp_all)]
    have hk : k ∉ akeys m := by
      intro hk
      rw [← alookup_isSome_iff] at hk
      exact hm hk
    simp [List.nodup_append, h, hk]

/-! ### The evolution of the mapping through the loop -/


theorem processPostcode_skip (service : Service) (st : MapperState) (p : String)
    (h : (alookup st.mapping p).isSome = true) : processPostcode service st p = st := by
  simp [processPostcode, h]

theorem processPostcode_mapping (service : Service) (st : MapperState) (p : String) :
    (processPostcode service st p).mapping = mapStep service st.mapping p := by
  by_cases h : (alookup st.mapping p).isSome
  · rw [processPostcode_skip service st p h]
    simp [mapStep, h]
  · simp only [processPostcode, mapStep, if_neg h]
    by_cases ht : (fetch_postcode_id service p).truthy <;>
      simp only [if_pos, if_neg, ht, if_true, if_false] <;> split <;> rfl

theorem runLoop_nil (service : Service) (st : MapperState) :
    runLoop service st [] = st := rfl

theorem runLoop_cons (service : Service) (st : MapperState) (p : String)
    (ps : List String) :
    runLoop service st (p :: ps) = runLoop service (processPostcode service st p) ps := rfl

theorem runLoop_mapping (service : Service) (ps : List String) :
    ∀ st : MapperState,
      (runLoop service st ps).mapping = ps.foldl (mapStep service) st.mapping := by
  induction ps with
  | nil => intro st; rfl
  | cons p ps ih =>
    intro st
    rw [runLoop_cons, ih, List.foldl_cons, processPostcode_mapping]

theorem alookup_mapStep_of_isSome {service : Service} {m : List (String × PyVal)}
    {p : String} (q : String) (h : (alookup m p).isSome = true) :
    alookup (mapStep service m q) p = alookup m p := by
  by_cases hm : (alookup m q).isSome
  · simp [mapStep, hm]
  · by_cases ht : (fetch_postcode_id service q).truthy
    · have hne : p ≠ q := by
        intro hh
        rw [hh] at h
        exact absurd h (by simp_all)
      simp [mapStep, hm, ht, alookup_dictInsert_ne m q p _ hne]
    · simp [mapStep, hm, ht]

theorem alookup_mapStep_ne {service : Service} {m : List (String × PyVal)}
    {p q : String} (hne : q ≠ p) :
    alookup (mapStep service m q) p = alookup m p := by
  by_cases hm : (alookup m q).isSome
  · simp [mapStep, hm]
  · by_cases ht : (fetch_postcode_id service q).truthy
    · simp [mapStep, hm, ht, alookup_dictInsert_ne m q p _ (fun hh => hne hh.symm)]
    · simp [mapStep, hm, ht]

theorem alookup_mapStep_self_falsy {service : Service} {m : List (String × PyVal)}
    {q : String} (h : (alookup m q).isSome = false)
    (ht : (fetch_postcode_id service q).truthy = false) :
    mapStep service m q = m := by
  simp [mapStep, h, ht]

theorem foldl_mapStep_of_isSome (service : Service) (ps : List String) :
    ∀ m0 : List (String × PyVal), ∀ p : String, (alookup m0 p).isSome = true →
      alookup (ps.foldl (mapStep service) m0) p = alookup m0 p := by
  induction ps with
  | nil => intro m0 p _; rfl
  | cons q ps ih =>
    intro m0 p h
    rw [List.foldl_cons]
    rw [ih (mapStep service m0 q) p
      (by rw [alookup_mapStep_of_isSome q h]; exact h)]
    exact alookup_mapStep_of_isSome q h

theorem foldl_mapStep_of_not_mapped (service : Service) (ps : List String) :
    ∀ m0 : List (String × PyVal), ∀ p : String, (alookup m0 p).isSome = false →
      alookup (ps.foldl (mapStep service) m0) p =
        if p ∈ ps ∧ (fetch_postcode_id service p).truthy = true
        then some (fetch_postcode_id service p) else Option.none := by
  induction ps with
  | nil =>
    intro m0 p h
    have hnone : alookup m0 p = Option.none := by
      cases hv : alookup m0 p
      · rfl
      · rw [hv] at h; simp at h
    simp [hnone]
  | cons q ps ih =>
    intro m0 p h
    rw [List.foldl_cons]
    by_cases hq : q = p
    · subst hq
      by_cases ht : (fetch_postcode_id service q).truthy
      · have hstep : mapStep service m0 q = dictInsert m0 q (fetch_postcode_id service q) := by
          simp [mapStep, h, ht]
        have hsome : (alookup (mapStep service m0 q) q).isSome = true := by
          rw [hstep, alookup_dictInsert_self]; rfl
        rw [foldl_mapStep_of_isSome service ps _ q hsome, hstep,
          alookup_dictInsert_self]
        simp [ht]
      · rw [alookup_mapStep_self_falsy h (by simp_all)]
        rw [ih m0 q h]
        simp [ht]
    · have hpres : alookup (mapStep service m0 q) p = alookup m0 p :=
        alookup_mapStep_ne hq
      rw [ih (mapStep service m0 q) p (by rw [hpres]; exact h)]
      have hmem : (p ∈ q :: ps) ↔ (p ∈ ps) := by
        constructor
        · intro hm
          rcases List.mem_cons.mp hm with h1 | h2
          · exact absurd h1.symm hq
          · exact h2
        · exact fun hm => List.mem_cons_of_mem q hm
      by_cases hp : p ∈ ps
      · simp [hp, hmem.mpr hp]
      · have hnp : p ∉ q :: ps := fun hm => hp (hmem.mp hm)
        simp [hp, hnp]

theorem nodup_akeys_mapStep (service : Service) (m : List (String × PyVal)) (q : String)
    (h : (akeys m).Nodup) : (akeys (mapStep service m q)).Nodup := by
  by_cases hm : (alookup m q).isSome
  · simpa [mapStep, hm] using h
  · by_cases ht : (fetch_postcode_id service q).truthy
    · simp only [mapStep, hm, ht, if_false, if_true, Bool.false_eq_true]
      exact nodup_akeys_dictInsert q _ h
    · simpa [mapStep, hm, ht] using h

theorem nodup_akeys_foldl_mapStep (service : Service) (ps : List String) :
    ∀ m0 : List (String × PyVal), (akeys m0).Nodup →
      (akeys (ps.foldl (mapStep service) m0)).Nodup := by
  induction ps with
  | nil => intro m0 h; exact h
  | cons q ps ih =>
    intro m0 h
    rw [List.foldl_cons]
    exact ih _ (nodup_akeys_mapStep service m0 q h)

/-! ### The fetch and no-ID logs -/

theorem processPostcode_fetchLog_not_mapped (service : Service) (st : MapperState)
    (p : String) (h : (alookup st.mapping p).isSome = false) :
    (processPostcode service st p).fetchLog = st.fetchLog ++ [p] := by
  simp only [processPostcode, h, Bool.false_eq_true, if_false]
  by_cases ht : (fetch_postcode_id service p).truthy <;>
    simp only [ht, if_true, if_false, Bool.false_eq_true] <;> split <;> rfl

theorem mem_fetchLog_processPostcode (service : Service) (st : MapperState)
    {p : String} (q : String) (h : p ∈ st.fetchLog) :
    p ∈ (processPostcode service st q).fetchLog := by
  by_cases hm : (alookup st.mapping q).isSome
  · rw [processPostcode_skip service st q hm]; exact h
  · rw [processPostcode_fetchLog_not_mapped service st q (by simp_all)]
    exact List.mem_append_left _ h

theorem mem_fetchLog_runLoop (service : Service) (ps : List String) :
    ∀ st : MapperState, ∀ p : String, p ∈ st.fetchLog →
      p ∈ (runLoop service st ps).fetchLog := by
  induction ps with
  | nil => intro st p h; exact h
  | cons q ps ih =>
    intro st p h
    rw [runLoop_cons]
    exact ih _ p (mem_fetchLog_processPostcode service st q h)

theorem not_mem_fetchLog_runLoop (service : Service) (ps : List String) :
    ∀ st : MapperState, ∀ p : String, (alookup st.mapping p).isSome = true →
      p ∉ st.fetchLog → p ∉ (runLoop service st ps).fetchLog := by
  induction ps with
  | nil => intro st p _ hl; exact hl
  | cons q ps ih =>
    intro st p hm hl
    rw [runLoop_cons]
    by_cases hq : (alookup st.mapping q).isSome
    · rw [processPostcode_skip service st q hq]
      exact ih st p hm hl
    · have hne : q ≠ p := by
        intro hh
        rw [hh] at hq
        exact hq hm
      apply ih (processPostcode service st q) p
      · rw [processPostcode_mapping, alookup_mapStep_ne hne]
        exact hm
      · rw [processPostcode_fetchLog_not_mapped service st q (by simp_all)]
        intro hmem
        rcases List.mem_append.mp hmem with h1 | h2
        · exact hl h1
        · exact hne (List.mem_singleton.mp h2).symm

theorem mem_fetchLog_of_unmapped (service : Service) (ps : List String) :
    ∀ st : MapperState, ∀ q : String, q ∈ ps →
      (alookup st.mapping q).isSome = false →
      q ∈ (runLoop service st ps).fetchLog := by
  induction ps with
  | nil => intro st q hq _; simp at hq
  | cons q0 ps ih =>
    intro st q hq hm
    rw [runLoop_cons]
    rcases List.mem_cons.mp hq with he | ht
    · subst he
      apply mem_fetchLog_runLoop
      rw [processPostcode_fetchLog_not_mapped service st q hm]
      exact List.mem_append_right _ (List.mem_singleton_self q)
    · by_cases h' : (alookup (processPostcode service st q0).mapping q).isSome
      · by_cases hqq : q0 = q
        · subst hqq
          apply mem_fetchLog_runLoop
          rw [processPostcode_fetchLog_not_mapped service st q0 hm]
          exact List.mem_append_right _ (List.mem_singleton_self q0)
        · rw [processPostcode_mapping, alookup_mapStep_ne hqq] at h'
          rw [hm] at h'
          simp at h'
      · exact ih _ q ht (by simp_all)

theorem processPostcode_noIdLog_falsy (service : Service) (st : MapperState)
    (p : String) (h : (alookup st.mapping p).isSome = false)
    (ht : (fetch_postcode_id service p).truthy = false) :
    (processPostcode service st p).noIdLog = st.noIdLog ++ [p] := by
  simp only [processPostcode, h, Bool.false_eq_true, if_false, ht]
  split <;> rfl

theorem processPostcode_noIdLog_truthy (service : Service) (st : MapperState)
    (p : String) (h : (alookup st.mapping p).isSome = false)
    (ht : (fetch_postcode_id service p).truthy = true) :
    (processPostcode service st p).noIdLog = st.noIdLog := by
  simp only [processPostcode, h, Bool.false_eq_true, if_false, ht, if_true]
  split <;> rfl

theorem mem_noIdLog_processPostcode (service : Service) (st : MapperState)
    {p : String} (q : String) (h : p ∈ st.noIdLog) :
    p ∈ (processPostcode service st q).noIdLog := by
  by_cases hm : (alookup st.mapping q).isSome
  · rw [processPostcode_skip service st q hm]; exact h
  · by_cases ht : (fetch_postcode_id service q).truthy
    · rw [processPostcode_noIdLog_truthy service st q (by simp_all) ht]; exact h
    · rw [processPostcode_noIdLog_falsy service st q (by simp_all) (by simp_all)]
      exact List.mem_append_left _ h

theorem mem_noIdLog_runLoop (service : Service) (ps : List String) :
    ∀ st : MapperState, ∀ p : String, p ∈ st.noIdLog →
      p ∈ (runLoop service st ps).noIdLog := by
  induction ps with
  | nil => intro st p h; exact h
  | cons q ps ih =>
    intro st p h
    rw [runLoop_cons]
    exact ih _ p (mem_noIdLog_processPostcode service st q h)

theorem mem_noIdLog_of_falsy (service : Service) (ps : List String) :
    ∀ st : MapperState, ∀ q : String, q ∈ ps →
      (alookup st.mapping q).isSome = false →
      (fetch_postcode_id service q).truthy = false →
      q ∈ (runLoop service st ps).noIdLog := by
  induction ps with
  | nil => intro st q hq _ _; simp at hq
  | cons q0 ps ih =>
    intro st q hq hm ht
    rw [runLoop_cons]
    rcases List.mem_cons.mp hq with he | htail
    · subst he
      apply mem_noIdLog_runLoop
      rw [processPostcode_noIdLog_falsy service st q hm ht]
      exact List.mem_append_right _ (List.mem_singleton_self q)
    · apply ih _ q htail _ ht
      rw [processPostcode_mapping]
      by_cases hqq : q0 = q
      · subst hqq
        rw [alookup_mapStep_self_falsy hm ht]
        exact hm
      · rw [alookup_mapStep_ne hqq]
        exact hm

/-! ### Shapes of one unskipped iteration -/

theorem processPostcode_shape_truthy (service : Service) (st : MapperState) (p : String)
    (h : (alookup st.mapping p).isSome = false)
    (ht : (fetch_postcode_id service p).truthy = true)
    (hf : (st.fetched + 1) % 100 ≠ 0) :
    processPostcode service st p =
      { st with
        fetched := st.fetched + 1
        fetchLog := st.fetchLog ++ [p]
        mapping := dictInsert st.mapping p (fetch_postcode_id service p)
        writeBuffer := st.writeBuffer ++ [(p, fetch_postcode_id service p)] } := by
  simp [processPostcode, h, ht, hf]

theorem processPostcode_shape_falsy (service : Service) (st : MapperState) (p : String)
    (h : (alookup st.mapping p).isSome = false)
    (ht : (fetch_postcode_id service p).truthy = false)
    (hf : (st.fetched + 1) % 100 ≠ 0) :
    processPostcode service st p =
      { st with
        fetched := st.fetched + 1
        fetchLog := st.fetchLog ++ [p]
        noIdLog := st.noIdLog ++ [p] } := by
  simp [processPostcode, h, ht, hf]

theorem processPostcode_shape_truthy_flush (service : Service) (st : MapperState)
    (p : String)
    (h : (alookup st.mapping p).isSome = false)
    (ht : (fetch_postcode_id service p).truthy = true)
    (hf : (st.fetched + 1) % 100 = 0) :
    processPostcode service st p =
      { st with
        fetched := st.fetched + 1
        fetchLog := st.fetchLog ++ [p]
        mapping := dictInsert st.mapping p (fetch_postcode_id service p)
        writeBuffer := []
        fileRows :=
          flush_buffer_to_csv (st.writeBuffer ++ [(p, fetch_postcode_id service p)])
            st.fileRows } := by
  simp [processPostcode, h, ht, hf]

theorem processPostcode_shape_falsy_flush (service : Service) (st : MapperState)
    (p : String)
    (h : (alookup st.mapping p).isSome = false)
    (ht : (fetch_postcode_id service p).truthy = false)
    (hf : (st.fetched + 1) % 100 = 0) :
    processPostcode service st p =
      { st with
        fetched := st.fetched + 1
        fetchLog := st.fetchLog ++ [p]
        noIdLog := st.noIdLog ++ [p]
        writeBuffer := []
        fileRows := flush_buffer_to_csv st.writeBuffer st.fileRows } := by
  simp [processPostcode, h, ht, hf]

/-! ### The write-buffer bound -/

theorem processPostcode_buffer_le (service : Service) (st : MapperState) (p : String)
    (h : st.writeBuffer.length ≤ st.fetched % 100) :
    (processPostcode service st p).writeBuffer.length ≤
      (processPostcode service st p).fetched % 100 := by
  by_cases hm : (alookup st.mapping p).isSome
  · rw [processPostcode_skip service st p hm]
    exact h
  · have hm' : (alookup st.mapping p).isSome = false := by simp_all
    by_cases hf : (st.fetched + 1) % 100 = 0
    · by_cases ht : (fetch_postcode_id service p).truthy
      · rw [processPostcode_shape_truthy_flush service st p hm' ht hf]
        simp
      · rw [processPostcode_shape_falsy_flush service st p hm' (by simp_all) hf]
        simp
    · by_cases ht : (fetch_postcode_id service p).truthy
      · rw [processPostcode_shape_truthy service st p hm' ht hf]
        simp only [List.length_append, List.length_cons, List.length_nil]
        omega
      · rw [processPostcode_shape_falsy service st p hm' (by simp_all) hf]
        simp only
        omega

theorem runLoop_buffer_le (service : Service) (ps : List String) :
    ∀ st : MapperState, st.writeBuffer.length ≤ st.fetched % 100 →
      (runLoop service st ps).writeBuffer.length ≤
        (runLoop service st ps).fetched % 100 := by
  induction ps with
  | nil => intro st h; exact h
  | cons q ps ih =>
    intro st h
    rw [runLoop_cons]
    exact ih _ (processPostcode_buffer_le service st q h)

/-! ### The checkpoint invariant of a fresh run -/


theorem processPostcode_bufferFileInv (service : Service) (st : MapperState)
    (p : String) (h : bufferFileInv st) :
    bufferFileInv (processPostcode service st p) := by
  obtain ⟨fl, hmap, hfile⟩ := h
  by_cases hm : (alookup st.mapping p).isSome
  · rw [processPostcode_skip service st p hm]
    exact ⟨fl, hmap, hfile⟩
  · have hm' : (alookup st.mapping p).isSome = false := by simp_all
    have hins : dictInsert st.mapping p (fetch_postcode_id service p) =
        st.mapping ++ [(p, fetch_postcode_id service p)] :=
      dictInsert_of_not_mem _ hm'
    by_cases hf : (st.fetched + 1) % 100 = 0
    · by_cases ht : (fetch_postcode_id service p).truthy
      · rw [processPostcode_shape_truthy_flush service st p hm' ht hf]
        refine ⟨fl ++ (st.writeBuffer ++ [(p, fetch_postcode_id service p)]), ?_, ?_⟩
        · rw [hins, hmap, List.append_assoc]
          simp
        · simp only [flush_buffer_to_csv, hfile]
          rw [if_neg (by simp)]
          simp
      · rw [processPostcode_shape_falsy_flush service st p hm' (by simp_all) hf]
        cases hbuf : st.writeBuffer with
        | nil =>
          refine ⟨fl, ?_, ?_⟩
          · simpa [hbuf] using hmap
          · simp [flush_buffer_to_csv, hbuf, hfile]
        | cons b bs =>
          refine ⟨fl ++ st.writeBuffer, ?_, ?_⟩
          · simp [hmap]
          · simp only [flush_buffer_to_csv, hfile, hbuf]
            rw [if_neg (by simp)]
            simp [← hbuf]
    · by_cases ht : (fetch_postcode_id service p).truthy
      · rw [processPostcode_shape_truthy service st p hm' ht hf]
        refine ⟨fl, ?_, hfile⟩
        rw [hins, hmap, List.append_assoc]
      · rw [processPostcode_shape_falsy service st p hm' (by simp_all) hf]
        exact ⟨fl, hmap, hfile⟩

theorem runLoop_bufferFileInv (service : Service) (ps : List String) :
    ∀ st : MapperState, bufferFileInv st → bufferFileInv (runLoop service st ps) := by
  induction ps with
  | nil => intro st h; exact h
  | cons q ps ih =>
    intro st h
    rw [runLoop_cons]
    exact ih _ (processPostcode_bufferFileInv service st q h)

/-! ### Reloading a file written by this program -/


theorem akeys_map_strOf (l : List (String × PyVal)) :
    akeys (l.map strOfEntry) = akeys l := by
  induction l with
  | nil => rfl
  | cons e l ih =>
    simp only [akeys, List.map_cons] at ih ⊢
    rw [ih]
    rfl

theorem foldl_loadRow_of_rowOf (fl : List (String × PyVal)) :
    ∀ acc : List (String × PyVal), (akeys fl).Nodup →
      (∀ k ∈ akeys fl, k ∉ akeys acc) →
      (fl.map rowOf).foldl loadRow acc = acc ++ fl.map strOfEntry := by
  induction fl with
  | nil => intro acc _ _; simp
  | cons e fl ih =>
    intro acc hnd hdisj
    have hnd' : e.1 ∉ akeys fl ∧ (akeys fl).Nodup := by
      have h0 : akeys (e :: fl) = e.1 :: akeys fl := rfl
      rw [h0] at hnd
      exact List.nodup_cons.mp hnd
    have hkey : (rowOf e).getD 0 "" = e.1 := rfl
    have hval : (rowOf e).get? 1 = some (pyStr e.2) := rfl
    have hnotin : (alookup acc e.1).isSome = false := by
      have : e.1 ∉ akeys acc := hdisj e.1 (by simp [akeys])
      cases hv : (alookup acc e.1) with
      | none => rfl
      | some v =>
        exact absurd ((alookup_isSome_iff acc e.1).mp (by rw [hv]; rfl)) this
    have hstep : loadRow acc (rowOf e) = acc ++ [strOfEntry e] := by
      simp only [loadRow, hkey, hval]
      exact dictInsert_of_not_mem _ hnotin
    rw [List.map_cons, List.foldl_cons, hstep]
    rw [ih (acc ++ [strOfEntry e]) hnd'.2 ?_]
    · simp
    · intro k hk
      have hk1 : k ≠ e.1 := by
        intro hh
        exact hnd'.1 (hh ▸ hk)
      intro hmem
      simp only [akeys, List.map_append] at hmem
      rcases List.mem_append.mp hmem with h1 | h2
      · exact hdisj k (List.mem_cons_of_mem _ hk) h1
      · simp [strOfEntry] at h2
        exact hk1 h2

theorem loadMapping_of_rowOf (fl : List (String × PyVal)) (h : (akeys fl).Nodup) :
    loadMapping (csvHeader :: fl.map rowOf) = fl.map strOfEntry := by
  simp only [loadMapping]
  rw [foldl_loadRow_of_rowOf fl [] h (by intro k _; simp [akeys])]
  simp

/-! ### Sorted association lists are determined by their lookups -/

theorem not_mem_akeys_of_pairwise_head {β : Type} {e : String × β} {l : List (String × β)}
    (h : (e :: l).Pairwise (fun a b : String × β => a.1 < b.1)) : e.1 ∉ akeys l := by
  intro hk
  obtain ⟨x, hx, hx1⟩ := List.mem_map.mp hk
  have := (List.pairwise_cons.mp h).1 x hx
  rw [hx1] at this
  exact lt_irrefl e.1 this

theorem strictSorted_alookup_ext {β : Type} :
    ∀ l1 l2 : List (String × β),
      l1.Pairwise (fun a b : String × β => a.1 < b.1) →
      l2.Pairwise (fun a b : String × β => a.1 < b.1) →
      (∀ p, alookup l1 p = alookup l2 p) → l1 = l2 := by
  intro l1
  induction l1 with
  | nil =>
    intro l2 _ _ hl
    cases l2 with
    | nil => rfl
    | cons b l2 =>
      have := hl b.1
      rw [alookup_cons, if_pos rfl] at this
      simp [alookup] at this
  | cons a l1 ih =>
    intro l2 h1 h2 hl
    cases l2 with
    | nil =>
      have := hl a.1
      rw [alookup_cons, if_pos rfl] at this
      simp [alookup] at this
    | cons b l2 =>
      have ha : alookup (a :: l1) a.1 = some a.2 := by rw [alookup_cons, if_pos rfl]
      have hb : alookup (b :: l2) b.1 = some b.2 := by rw [alookup_cons, if_pos rfl]
      have hab : a.1 = b.1 := by
        by_contra hne
        have hmem_a : a.1 ∈ akeys (b :: l2) :=
          (alookup_isSome_iff _ _).mp (by rw [← hl a.1, ha]; rfl)
        have hmem_b : b.1 ∈ akeys (a :: l1) :=
          (alookup_isSome_iff _ _).mp (by rw [hl b.1, hb]; rfl)
        have hba : b.1 < a.1 := by
          rcases List.mem_cons.mp hmem_a with h' | h'
          · exact absurd h'.symm (fun hh => hne hh.symm)
          · obtain ⟨x, hx, hx1⟩ := List.mem_map.mp h'
            have := (List.pairwise_cons.mp h2).1 x hx
            rwa [hx1] at this
        have hab' : a.1 < b.1 := by
          rcases List.mem_cons.mp hmem_b with h' | h'
          · exact absurd h'.symm hne
          · obtain ⟨x, hx, hx1⟩ := List.mem_map.mp h'
            have := (List.pairwise_cons.mp h1).1 x hx
            rwa [hx1] at this
        exact lt_asymm hba hab'
      have hval : a.2 = b.2 := by
        have := hl a.1
        rw [ha] at this
        rw [hab] at this
        rw [hb] at this
        exact Option.some.inj this
      have hhead : a = b := Prod.ext hab hval
      have htails : ∀ p, alookup l1 p = alookup l2 p := by
        intro p
        by_cases hp : p = a.1
        · have hn1 : alookup l1 p = Option.none := by
            rw [hp]
            exact (alookup_eq_none_iff l1 a.1).mpr (not_mem_akeys_of_pairwise_head h1)
          have hn2 : alookup l2 p = Option.none := by
            rw [hp]
            apply (alookup_eq_none_iff l2 a.1).mpr
            rw [hab]
            exact not_mem_akeys_of_pairwise_head h2
          rw [hn1, hn2]
        · have := hl p
          rw [alookup_cons, alookup_cons, if_neg (fun hh => hp hh.symm),
            if_neg (by rw [← hab]; exact fun hh => hp hh.symm)] at this
          exact this
      rw [hhead, ih l2 (List.pairwise_cons.mp h1).2 (List.pairwise_cons.mp h2).2 htails]

/-! ### The sorted rewrite depends only on the rendered lookups -/


theorem alookup_map_cell (l : List (String × PyVal)) (k : String) :
    alookup (l.map cellOfEntry) k = (alookup l k).map pyStr := by
  induction l with
  | nil => rfl
  | cons e l ih =>
    by_cases he : e.1 = k <;> simp [alookup, cellOfEntry, he, ih]

theorem pairwise_keyLT_of_sorted_nodup {β : Type} {l : List (String × β)}
    (hs : List.Sorted keyLE l) (hnd : (akeys l).Nodup) :
    l.Pairwise (fun a b : String × β => a.1 < b.1) := by
  have hne : l.Pairwise (fun a b : String × β => a.1 ≠ b.1) :=
    (List.pairwise_map).mp hnd
  have hand := List.Pairwise.and hs hne
  exact hand.imp (fun h => lt_of_le_of_ne h.1 h.2)

theorem nodup_akeys_insertionSort (m : List (String × PyVal))
    (h : (akeys m).Nodup) : (akeys (List.insertionSort keyLE m)).Nodup := by
  have hperm : (akeys (List.insertionSort keyLE m)).Perm (akeys m) :=
    (List.perm_insertionSort keyLE m).map Prod.fst
  exact hperm.nodup_iff.mpr h

theorem write_sorted_csv_congr (m1 m2 : List (String × PyVal))
    (h1 : (akeys m1).Nodup) (h2 : (akeys m2).Nodup)
    (hcell : ∀ p, (alookup m1 p).map pyStr = (alookup m2 p).map pyStr) :
    write_sorted_csv m1 = write_sorted_csv m2 := by
  have hs1 : List.Sorted keyLE (List.insertionSort keyLE m1) :=
    List.sorted_insertionSort keyLE m1
  have hs2 : List.Sorted keyLE (List.insertionSort keyLE m2) :=
    List.sorted_insertionSort keyLE m2
  have hnd1 := nodup_akeys_insertionSort m1 h1
  have hnd2 := nodup_akeys_insertionSort m2 h2
  have hp1 : (List.insertionSort keyLE m1).Pairwise
      (fun a b : String × PyVal => a.1 < b.1) :=
    pairwise_keyLT_of_sorted_nodup hs1 hnd1
  have hp2 : (List.insertionSort keyLE m2).Pairwise
      (fun a b : String × PyVal => a.1 < b.1) :=
    pairwise_keyLT_of_sorted_nodup hs2 hnd2
  have hc1 : ((List.insertionSort keyLE m1).map cellOfEntry).Pairwise
      (fun a b : String × String => a.1 < b.1) :=
    List.Pairwise.map cellOfEntry (fun a b h => h) hp1
  have hc2 : ((List.insertionSort keyLE m2).map cellOfEntry).Pairwise
      (fun a b : String × String => a.1 < b.1) :=
    List.Pairwise.map cellOfEntry (fun a b h => h) hp2
  have hlook : ∀ p,
      alookup ((List.insertionSort keyLE m1).map cellOfEntry) p =
        alookup ((List.insertionSort keyLE m2).map cellOfEntry) p := by
    intro p
    rw [alookup_map_cell, alookup_map_cell,
      perm_alookup (List.perm_insertionSort keyLE m1) hnd1 p,
      perm_alookup (List.perm_insertionSort keyLE m2) hnd2 p]
    exact hcell p
  have hcells : (List.insertionSort keyLE m1).map cellOfEntry =
      (List.insertionSort keyLE m2).map cellOfEntry :=
    strictSorted_alookup_ext _ _ hc1 hc2 hlook
  have hrows : ∀ m : List (String × PyVal),
      m.map rowOf = (m.map cellOfEntry).map (fun pr => [pr.1, pr.2]) := by
    intro m
    rw [List.map_map]
    rfl
  unfold write_sorted_csv
  rw [hrows, hrows, hcells]

/-! ### Unfolding runMapper -/

theorem runMapper_mapping (service : Service) (existing : Option (List (List String)))
    (lines : List String) :
    (runMapper service existing lines).finalState.mapping =
      (readPostcodes lines).foldl (mapStep service) (initState existing).mapping := by
  simp only [runMapper]
  exact runLoop_mapping service (readPostcodes lines) (initState existing)

theorem runMapper_finalFile (service : Service) (existing : Option (List (List String)))
    (lines : List String) :
    (runMapper service existing lines).finalFile =
      write_sorted_csv
        ((readPostcodes lines).foldl (mapStep service) (initState existing).mapping) := by
  simp only [runMapper]
  exact congrArg write_sorted_csv (runLoop_mapping service (readPostcodes lines) (initState existing))

theorem runMapper_fetchLog (service : Service) (existing : Option (List (List String)))
    (lines : List String) :
    (runMapper service existing lines).finalState.fetchLog =
      (runLoop service (initState existing) (readPostcodes lines)).fetchLog := rfl

theorem runMapper_noIdLog (service : Service) (existing : Option (List (List String)))
    (lines : List String) :
    (runMapper service existing lines).finalState.noIdLog =
      (runLoop service (initState existing) (readPostcodes lines)).noIdLog := rfl

theorem nodup_akeys_initState (existing : Option (List (List String))) :
    (akeys (initState existing).mapping).Nodup := by
  cases existing with
  | none => simp [initState, akeys]
  | some rows =>
    simp only [initState]
    cases rows with
    | nil => simp [loadMapping, akeys]
    | cons hdr body =>
      simp only [loadMapping]
      have : ∀ b : List (List String), ∀ acc : List (String × PyVal),
          (akeys acc).Nodup → (akeys (b.foldl loadRow acc)).Nodup := by
        intro b
        induction b with
        | nil => intro acc h; exact h
        | cons row b ih =>
          intro acc h
          rw [List.foldl_cons]
          exact ih _ (nodup_akeys_dictInsert _ _ h)
      exact this body [] (by simp [akeys])

/-! ### Every entry of a fresh run's final mapping comes from a truthy fetch -/

theorem mem_final_mapping_fresh (service : Service) (ps : List String)
    (e : String × PyVal) (he : e ∈ ps.foldl (mapStep service) []) :
    e.1 ∈ ps ∧ (fetch_postcode_id service e.1).truthy = true ∧
      e.2 = fetch_postcode_id service e.1 := by
  have hnd : (akeys (ps.foldl (mapStep service) [])).Nodup :=
    nodup_akeys_foldl_mapStep service ps [] (by simp [akeys])
  have hv : alookup (ps.foldl (mapStep service) []) e.1 = some e.2 :=
    alookup_eq_some_of_mem hnd he
  rw [foldl_mapStep_of_not_mapped service ps [] e.1 rfl] at hv
  by_cases hc : e.1 ∈ ps ∧ (fetch_postcode_id service e.1).truthy = true
  · rw [if_pos hc] at hv
    exact ⟨hc.1, hc.2, (Option.some.inj hv).symm⟩
  · rw [if_neg hc] at hv
    simp at hv

/-! ### Restarting from any state whose entries agree with the service -/

theorem resume_same_final_file (service : Service) (ps : List String)
    (m0 : List (String × PyVal)) (hnd : (akeys m0).Nodup)
    (hcond : ∀ e : String × PyVal, e ∈ m0 → e.1 ∈ ps ∧
      (fetch_postcode_id service e.1).truthy = true ∧
      pyStr e.2 = pyStr (fetch_postcode_id service e.1)) :
    write_sorted_csv (ps.foldl (mapStep service) m0) =
      write_sorted_csv (ps.foldl (mapStep service) []) := by
  apply write_sorted_csv_congr _ _ (nodup_akeys_foldl_mapStep service ps m0 hnd)
    (nodup_akeys_foldl_mapStep service ps [] (by simp [akeys]))
  intro p
  by_cases hp : (alookup m0 p).isSome
  · obtain ⟨v, hv⟩ := Option.isSome_iff_exists.mp hp
    have hmem := mem_of_alookup_eq_some hv
    obtain ⟨hps, htr, hcell⟩ := hcond (p, v) hmem
    rw [foldl_mapStep_of_isSome service ps m0 p hp, hv,
      foldl_mapStep_of_not_mapped service ps [] p rfl]
    simp only [hps, htr, and_self, if_true, Option.map_some']
    rw [hcell]
  · rw [foldl_mapStep_of_not_mapped service ps m0 p (by simp_all),
      foldl_mapStep_of_not_mapped service ps [] p rfl]

/-! ### Claim theorems -/



/-- C7: the extractor's output contains exactly the trimmed, non-empty
postcodes of rows whose termination field is empty (so a postcode all of
whose rows are terminated is absent), each exactly once, in strictly
increasing lexicographic order. -/
theorem claim_C7 (rows : List SrcRow) :
    (∀ p : String, p ∈ extract_postcodes rows ↔
      (p ≠ "" ∧ ∃ r ∈ rows, pyStrip (r.pcds.getD "") = p ∧
        pyStrip (r.doterm.getD "") = "")) ∧
    (extract_postcodes rows).Pairwise (fun a b : String => a < b) := by
  constructor
  · intro p
    simp only [extract_postcodes, List.mem_insertionSort, List.mem_dedup,
      List.mem_filterMap]
    constructor
    · rintro ⟨r, hr, hk⟩
      simp only [keptPostcode] at hk
      by_cases hcond : pyStrip (r.pcds.getD "") ≠ "" ∧ pyStrip (r.doterm.getD "") = ""
      · rw [if_pos hcond] at hk
        obtain rfl := Option.some.inj hk
        exact ⟨hcond.1, r, hr, rfl, hcond.2⟩
      · rw [if_neg hcond] at hk
        cases hk
    · rintro ⟨hne, r, hr, htrim, hterm⟩
      refine ⟨r, hr, ?_⟩
      simp only [keptPostcode]
      rw [if_pos ⟨by rwa [htrim], hterm⟩, htrim]
  · have hnd : (extract_postcodes rows).Nodup := by
      simp only [extract_postcodes]
      exact ((List.perm_insertionSort _ _).nodup_iff).mpr (List.nodup_dedup _)
    have hs : List.Sorted (fun a b : String => a ≤ b) (extract_postcodes rows) :=
      List.sorted_insertionSort _ _
    exact List.Sorted.lt_of_le hs hnd

/-- C8: on completion the mapping file is the header row `postcode,id`
followed by one row per mapping entry, with the postcode column strictly
increasing (hence no duplicate keys). -/
theorem claim_C8 (service : Service) (existing : Option (List (List String)))
    (lines : List String) :
    (runMapper service existing lines).finalFile.head? = some ["postcode", "id"] ∧
    (runMapper service existing lines).finalFile.tail.Pairwise
      (fun r1 r2 : List String => r1.getD 0 "" < r2.getD 0 "") ∧
    ((runMapper service existing lines).finalFile.tail).Perm
      ((runMapper service existing lines).finalState.mapping.map rowOf) := by
  have hnd : (akeys ((readPostcodes lines).foldl (mapStep service)
      (initState existing).mapping)).Nodup :=
    nodup_akeys_foldl_mapStep service (readPostcodes lines) _
      (nodup_akeys_initState existing)
  refine ⟨?_, ?_, ?_⟩
  · rw [runMapper_finalFile]
    rfl
  · rw [runMapper_finalFile]
    have hp := pairwise_keyLT_of_sorted_nodup
      (List.sorted_insertionSort keyLE ((readPostcodes lines).foldl (mapStep service)
        (initState existing).mapping))
      (nodup_akeys_insertionSort _ hnd)
    exact List.Pairwise.map rowOf (fun a b h => h) hp
  · rw [runMapper_finalFile, runMapper_mapping]
    exact (List.perm_insertionSort keyLE _).map rowOf

/-- C9 counterexample: `create_session` passes no backoff cap to the retry
strategy at all — the `backoff_max` argument is absent, so the cap is not
the configured `MAX_BACKOFF` (60). -/
theorem claim_C9_counterexample :
    create_session.http_adapter.max_retries.backoff_max ≠ some MAX_BACKOFF ∧
    create_session.http_adapter.max_retries.backoff_max = Option.none := by
  refine ⟨by decide, rfl⟩

/-- C9 (amended): `create_session` configures the retry policy with 3 total
attempts, restricted to GET, retrying statuses 429/500/502/503/504, with
exponential backoff from `INITIAL_BACKOFF = 1` second; it passes no
`backoff_max`, so the cap is the library default rather than
`MAX_BACKOFF = 60`, which is defined but unused.  The same adapter serves
both URL schemes. -/
theorem claim_C9_amended :
    create_session.http_adapter.max_retries.total = some 3 ∧
    create_session.http_adapter.max_retries.allowed_methods = some ["GET"] ∧
    create_session.http_adapter.max_retries.status_forcelist =
      some [429, 500, 502, 503, 504] ∧
    create_session.http_adapter.max_retries.backoff_factor = some INITIAL_BACKOFF ∧
    INITIAL_BACKOFF = 1 ∧ MAX_BACKOFF = 60 ∧
    create_session.http_adapter.max_retries.backoff_max = Option.none ∧
    create_session.https_adapter = create_session.http_adapter := by
  exact ⟨rfl, rfl, rfl, rfl, rfl, rfl, rfl, rfl⟩

/-- C1: a postcode already present in the mapping loaded from the existing
file is never passed to `fetch_postcode_id` during the run, its mapping
value is unchanged at the end, and its row appears unchanged in the final
output file. -/
theorem claim_C1 (service : Service) (rows : List (List String)) (lines : List String)
    (p : String) (h : (alookup (loadMapping rows) p).isSome = true) :
    p ∉ (runMapper service (some rows) lines).finalState.fetchLog ∧
    alookup (runMapper service (some rows) lines).finalState.mapping p =
      alookup (loadMapping rows) p ∧
    (∀ v : PyVal, alookup (loadMapping rows) p = some v →
      [p, pyStr v] ∈ (runMapper service (some rows) lines).finalFile) := by
  have hinit : (initState (some rows)).mapping = loadMapping rows := rfl
  refine ⟨?_, ?_, ?_⟩
  · rw [runMapper_fetchLog]
    apply not_mem_fetchLog_runLoop service (readPostcodes lines) (initState (some rows)) p
      (by rw [hinit]; exact h)
    simp [initState]
  · rw [runMapper_mapping, hinit]
    exact foldl_mapStep_of_isSome service (readPostcodes lines) (loadMapping rows) p h
  · intro v hv
    rw [runMapper_finalFile]
    have hM : alookup ((readPostcodes lines).foldl (mapStep service)
        (initState (some rows)).mapping) p = some v := by
      rw [hinit, foldl_mapStep_of_isSome service (readPostcodes lines) (loadMapping rows) p h]
      exact hv
    have hmem := mem_of_alookup_eq_some hM
    have hmem2 : (p, v) ∈ List.insertionSort keyLE
        ((readPostcodes lines).foldl (mapStep service) (initState (some rows)).mapping) :=
      (List.perm_insertionSort keyLE _).mem_iff.mpr hmem
    exact List.mem_cons_of_mem _ (List.mem_map.mpr ⟨(p, v), hmem2, rfl⟩)

/-- C1 witness: with `AB1 2CD` already mapped to `7` in the loaded file, a
run over a list containing it never fetches it and keeps its value. -/
theorem claim_C1_witness :
    "AB1 2CD" ∉ (runMapper svcSample (some [["postcode", "id"], ["AB1 2CD", "7"]])
      ["AB1 2CD", "ZZ9 9ZZ"]).finalState.fetchLog ∧
    alookup (runMapper svcSample (some [["postcode", "id"], ["AB1 2CD", "7"]])
      ["AB1 2CD", "ZZ9 9ZZ"]).finalState.mapping "AB1 2CD" =
      some (PyVal.str "7") ∧
    ["AB1 2CD", "7"] ∈ (runMapper svcSample (some [["postcode", "id"], ["AB1 2CD", "7"]])
      ["AB1 2CD", "ZZ9 9ZZ"]).finalFile := by
  have h := claim_C1 svcSample [["postcode", "id"], ["AB1 2CD", "7"]]
    ["AB1 2CD", "ZZ9 9ZZ"] "AB1 2CD" (by decide)
  refine ⟨h.1, ?_, ?_⟩
  · rw [h.2.1]
    decide
  · exact h.2.2 (PyVal.str "7") (by decide)

/-- C5: with a non-empty `matches` array in the response,
`fetch_postcode_id` returns the id of the first match whatever the later
matches are, and a run over a list containing that postcode records exactly
that id for it. -/
theorem claim_C5 (service : Service) (lines : List String) (p : String)
    (m : MatchEntry) (rest : List MatchEntry)
    (hresp : service p = .success (some (m :: rest))) :
    fetch_postcode_id service p = m.id.getD PyVal.none ∧
    ((m.id.getD PyVal.none).truthy = true → p ∈ readPostcodes lines →
      alookup (runMapper service Option.none lines).finalState.mapping p =
        some (m.id.getD PyVal.none)) := by
  have hfetch : fetch_postcode_id service p = m.id.getD PyVal.none := by
    simp [fetch_postcode_id, hresp]
  refine ⟨hfetch, ?_⟩
  intro htr hmem
  rw [runMapper_mapping]
  have hinit : (initState (Option.none : Option (List (List String)))).mapping = [] := rfl
  rw [hinit, foldl_mapStep_of_not_mapped service (readPostcodes lines) [] p rfl,
    if_pos ⟨hmem, by rw [hfetch]; exact htr⟩, hfetch]

/-- C5 witness: the mocked response `matches = [{id: "A"}, {id: "B"}]` for
`SW1A 1AA` makes the run record `"A"`, never `"B"`. -/
theorem claim_C5_witness :
    fetch_postcode_id svcSample "SW1A 1AA" = PyVal.str "A" ∧
    alookup (runMapper svcSample Option.none ["SW1A 1AA"]).finalState.mapping
      "SW1A 1AA" = some (PyVal.str "A") := by
  have h := claim_C5 svcSample ["SW1A 1AA"] "SW1A 1AA" ⟨some (PyVal.str "A")⟩
    [⟨some (PyVal.str "B")⟩] (by decide)
  exact ⟨h.1, h.2 (by decide) (by decide)⟩

/-- C6: an empty or absent `matches` array, or a transport failure after the
client's retries, makes `fetch_postcode_id` return `None`; the postcode is
then absent from the final mapping, and every other unmapped postcode of
the list is still fetched (the run continues, it does not abort). -/
theorem claim_C6 (service : Service) (existing : Option (List (List String)))
    (lines : List String) (p : String)
    (hresp : service p = .failure ∨ service p = .success Option.none ∨
      service p = .success (some []))
    (hunmapped : (alookup (initState existing).mapping p).isSome = false) :
    fetch_postcode_id service p = PyVal.none ∧
    (alookup (runMapper service existing lines).finalState.mapping p).isSome = false ∧
    (∀ q : String, q ∈ readPostcodes lines →
      (alookup (initState existing).mapping q).isSome = true ∨
      q ∈ (runMapper service existing lines).finalState.fetchLog) := by
  have hfetch : fetch_postcode_id service p = PyVal.none := by
    rcases hresp with h | h | h <;> simp [fetch_postcode_id, h]
  have htr : (fetch_postcode_id service p).truthy = false := by rw [hfetch]; rfl
  refine ⟨hfetch, ?_, ?_⟩
  · rw [runMapper_mapping,
      foldl_mapStep_of_not_mapped service (readPostcodes lines) _ p hunmapped]
    simp [htr]
  · intro q hq
    by_cases hm : (alookup (initState existing).mapping q).isSome
    · exact Or.inl hm
    · right
      rw [runMapper_fetchLog]
      exact mem_fetchLog_of_unmapped service (readPostcodes lines) _ q hq (by simp_all)

/-- C6 witness: with an empty `matches` response for `ZZ9 9ZZ`, the run
leaves it out of the mapping and still fetches the following postcode. -/
theorem claim_C6_witness :
    fetch_postcode_id svcSample "ZZ9 9ZZ" = PyVal.none ∧
    (alookup (runMapper svcSample Option.none ["ZZ9 9ZZ", "AB1 2CD"]).finalState.mapping
      "ZZ9 9ZZ").isSome = false ∧
    "AB1 2CD" ∈ (runMapper svcSample Option.none
      ["ZZ9 9ZZ", "AB1 2CD"]).finalState.fetchLog := by
  have h := claim_C6 svcSample Option.none ["ZZ9 9ZZ", "AB1 2CD"] "ZZ9 9ZZ"
    (Or.inr (Or.inr (by decide))) (by decide)
  refine ⟨h.1, h.2.1, ?_⟩
  rcases h.2.2 "AB1 2CD" (by decide) with h' | h'
  · exact absurd h' (by decide)
  · exact h'

/-- C10: a first match whose id is absent or falsy makes
`fetch_postcode_id` return that falsy value; the mapper then treats it like
a no-match: the postcode is not added to the mapping, the "No ID found"
line is logged for it, and the run continues with the other postcodes. -/
theorem claim_C10 (service : Service) (existing : Option (List (List String)))
    (lines : List String) (p : String) (m : MatchEntry) (rest : List MatchEntry)
    (hresp : service p = .success (some (m :: rest)))
    (hfalsy : (m.id.getD PyVal.none).truthy = false)
    (hunmapped : (alookup (initState existing).mapping p).isSome = false) :
    fetch_postcode_id service p = m.id.getD PyVal.none ∧
    (alookup (runMapper service existing lines).finalState.mapping p).isSome = false ∧
    (p ∈ readPostcodes lines →
      p ∈ (runMapper service existing lines).finalState.noIdLog) ∧
    (∀ q : String, q ∈ readPostcodes lines →
      (alookup (initState existing).mapping q).isSome = true ∨
      q ∈ (runMapper service existing lines).finalState.fetchLog) := by
  have hfetch : fetch_postcode_id service p = m.id.getD PyVal.none := by
    simp [fetch_postcode_id, hresp]
  have htr : (fetch_postcode_id service p).truthy = false := by
    rw [hfetch]; exact hfalsy
  refine ⟨hfetch, ?_, ?_, ?_⟩
  · rw [runMapper_mapping,
      foldl_mapStep_of_not_mapped service (readPostcodes lines) _ p hunmapped]
    simp [htr]
  · intro hmem
    rw [runMapper_noIdLog]
    exact mem_noIdLog_of_falsy service (readPostcodes lines) _ p hmem hunmapped htr
  · intro q hq
    by_cases hm : (alookup (initState existing).mapping q).isSome
    · exact Or.inl hm
    · right
      rw [runMapper_fetchLog]
      exact mem_fetchLog_of_unmapped service (readPostcodes lines) _ q hq (by simp_all)

/-- C10 witness: a first match with the falsy id `""` leaves the postcode
out of the mapping and logs "No ID found" for it. -/
theorem claim_C10_witness :
    fetch_postcode_id svcSample "FALSY" = PyVal.str "" ∧
    (alookup (runMapper svcSample Option.none ["FALSY"]).finalState.mapping
      "FALSY").isSome = false ∧
    "FALSY" ∈ (runMapper svcSample Option.none ["FALSY"]).finalState.noIdLog := by
  have h := claim_C10 svcSample Option.none ["FALSY"] "FALSY" ⟨some (PyVal.str "")⟩
    [] (by decide) (by decide) (by decide)
  exact ⟨h.1, h.2.1, h.2.2.1 (by decide)⟩

/-- C4: at any point between loop iterations the pending write buffer holds
at most 99 entries (at most `fetched % 100`, so it is empty right after
every 100th fetch); and an iteration that takes the fetch counter to a
multiple of 100 appends the whole accumulated batch to the file and clears
the buffer. -/
theorem claim_C4 (service : Service) (existing : Option (List (List String)))
    (lines : List String) (k : Nat) :
    (runLoop service (initState existing)
      ((readPostcodes lines).take k)).writeBuffer.length ≤ 99 ∧
    ((runLoop service (initState existing) ((readPostcodes lines).take k)).fetched
        % 100 = 0 →
      (runLoop service (initState existing)
        ((readPostcodes lines).take k)).writeBuffer = []) ∧
    (∀ q : String,
      (alookup (runLoop service (initState existing)
        ((readPostcodes lines).take k)).mapping q).isSome = false →
      ((runLoop service (initState existing)
        ((readPostcodes lines).take k)).fetched + 1) % 100 = 0 →
      (processPostcode service
        (runLoop service (initState existing) ((readPostcodes lines).take k))
        q).writeBuffer = [] ∧
      (processPostcode service
        (runLoop service (initState existing) ((readPostcodes lines).take k))
        q).fileRows =
        flush_buffer_to_csv
          ((runLoop service (initState existing)
            ((readPostcodes lines).take k)).writeBuffer ++
            (if (fetch_postcode_id service q).truthy = true
             then [(q, fetch_postcode_id service q)] else []))
          (runLoop service (initState existing)
            ((readPostcodes lines).take k)).fileRows) := by
  set stk := runLoop service (initState existing) ((readPostcodes lines).take k)
    with hstk
  have hinv : stk.writeBuffer.length ≤ stk.fetched % 100 := by
    rw [hstk]
    apply runLoop_buffer_le
    cases existing <;> simp [initState]
  refine ⟨?_, ?_, ?_⟩
  · have h99 : stk.fetched % 100 ≤ 99 := by omega
    omega
  · intro h0
    rw [h0] at hinv
    exact List.length_eq_zero.mp (Nat.le_zero.mp hinv)
  · intro q hm hf
    by_cases ht : (fetch_postcode_id service q).truthy
    · rw [processPostcode_shape_truthy_flush service stk q hm ht hf]
      simp [ht]
    · rw [processPostcode_shape_falsy_flush service stk q hm (by simp_all) hf]
      simp [ht]

/-! ### Reloading the final sorted file -/

theorem loadMapping_write_sorted (m : List (String × PyVal))
    (h : (akeys m).Nodup) :
    loadMapping (write_sorted_csv m) =
      (List.insertionSort keyLE m).map strOfEntry :=
  loadMapping_of_rowOf _ (nodup_akeys_insertionSort m h)

theorem entries_load_final_fresh (service : Service) (ps : List String)
    (e : String × PyVal)
    (he : e ∈ loadMapping (write_sorted_csv (ps.foldl (mapStep service) []))) :
    e.1 ∈ ps ∧ (fetch_postcode_id service e.1).truthy = true ∧
      pyStr e.2 = pyStr (fetch_postcode_id service e.1) := by
  rw [loadMapping_write_sorted _
    (nodup_akeys_foldl_mapStep service ps [] (by simp [akeys]))] at he
  obtain ⟨e0, he0, heq⟩ := List.mem_map.mp he
  have he0M : e0 ∈ ps.foldl (mapStep service) [] :=
    (List.perm_insertionSort keyLE _).mem_iff.mp he0
  obtain ⟨hps', htr, hval⟩ := mem_final_mapping_fresh service ps e0 he0M
  rw [← heq]
  refine ⟨hps', htr, ?_⟩
  simp only [strOfEntry, pyStr]
  rw [hval]

/-- C2 (amended): rerunning the mapper on the same list against the same
deterministic service, starting from the file the first run wrote, produces
an identical final file, and the second run fetches no postcode that the
first run resolved; only postcodes that stayed unmapped (no match or
failure) are fetched again. -/
theorem claim_C2_amended (service : Service) (lines : List String) :
    (runMapper service (some (runMapper service Option.none lines).finalFile)
      lines).finalFile = (runMapper service Option.none lines).finalFile ∧
    (∀ p : String,
      (alookup (runMapper service Option.none lines).finalState.mapping p).isSome
        = true →
      p ∉ (runMapper service (some (runMapper service Option.none lines).finalFile)
        lines).finalState.fetchLog) := by
  have hndM1 : (akeys ((readPostcodes lines).foldl (mapStep service) [])).Nodup :=
    nodup_akeys_foldl_mapStep service _ [] (by simp [akeys])
  have hfile1 : (runMapper service Option.none lines).finalFile =
      write_sorted_csv ((readPostcodes lines).foldl (mapStep service) []) :=
    runMapper_finalFile service Option.none lines
  have h2 : (runMapper service (some (runMapper service Option.none lines).finalFile)
      lines).finalFile =
      write_sorted_csv ((readPostcodes lines).foldl (mapStep service)
        (loadMapping (runMapper service Option.none lines).finalFile)) :=
    runMapper_finalFile service _ lines
  have h3 : loadMapping (runMapper service Option.none lines).finalFile =
      (List.insertionSort keyLE
        ((readPostcodes lines).foldl (mapStep service) [])).map strOfEntry := by
    rw [hfile1]
    exact loadMapping_write_sorted _ hndM1
  have hcond : ∀ e : String × PyVal,
      e ∈ (List.insertionSort keyLE
        ((readPostcodes lines).foldl (mapStep service) [])).map strOfEntry →
      e.1 ∈ readPostcodes lines ∧
      (fetch_postcode_id service e.1).truthy = true ∧
      pyStr e.2 = pyStr (fetch_postcode_id service e.1) := by
    intro e he
    apply entries_load_final_fresh service (readPostcodes lines) e
    rw [hfile1] at h3
    rw [h3]
    exact he
  constructor
  · rw [h2, h3, hfile1]
    apply resume_same_final_file service (readPostcodes lines) _ ?_ hcond
    rw [akeys_map_strOf]
    exact nodup_akeys_insertionSort _ hndM1
  · intro p hp
    rw [runMapper_fetchLog]
    apply not_mem_fetchLog_runLoop service (readPostcodes lines) _ p ?_
      (by simp [initState])
    have hp' : (alookup ((readPostcodes lines).foldl (mapStep service) []) p).isSome
        = true := by
      rw [runMapper_mapping service Option.none lines] at hp
      exact hp
    show (alookup (loadMapping (runMapper service Option.none lines).finalFile)
      p).isSome = true
    rw [h3, alookup_isSome_iff, akeys_map_strOf]
    have hmem : p ∈ akeys ((readPostcodes lines).foldl (mapStep service) []) :=
      (alookup_isSome_iff _ p).mp hp'
    exact (((List.perm_insertionSort keyLE _).map Prod.fst).mem_iff).mpr hmem

/-- C2 counterexample: with a service that has no match for `ZZ9 9ZZ`, the
second run produces an identical file but does fetch again — the claim that
the second run fetches nothing is false. -/
theorem claim_C2_counterexample :
    ¬ ((runMapper svcNoMatch
        (some (runMapper svcNoMatch Option.none ["ZZ9 9ZZ"]).finalFile)
        ["ZZ9 9ZZ"]).finalFile =
          (runMapper svcNoMatch Option.none ["ZZ9 9ZZ"]).finalFile ∧
      (runMapper svcNoMatch
        (some (runMapper svcNoMatch Option.none ["ZZ9 9ZZ"]).finalFile)
        ["ZZ9 9ZZ"]).finalState.fetchLog = []) := by
  decide

/-- C3: interrupting the mapper between any two iterations (the file then
holds the header and every checkpointed entry) and restarting it on the
same list against the same deterministic service yields exactly the final
sorted file of an uninterrupted run. -/
theorem claim_C3 (service : Service) (lines : List String) (k : Nat) :
    (runMapper service
      (some (runLoop service (initState Option.none)
        ((readPostcodes lines).take k)).fileRows) lines).finalFile =
    (runMapper service Option.none lines).finalFile := by
  obtain ⟨fl, hmap, hfile⟩ :
      bufferFileInv (runLoop service (initState Option.none)
        ((readPostcodes lines).take k)) :=
    runLoop_bufferFileInv service _ (initState Option.none) ⟨[], rfl, rfl⟩
  have hmapk : (runLoop service (initState Option.none)
      ((readPostcodes lines).take k)).mapping =
      ((readPostcodes lines).take k).foldl (mapStep service) [] :=
    runLoop_mapping service ((readPostcodes lines).take k) (initState Option.none)
  have hndk : (akeys ((runLoop service (initState Option.none)
      ((readPostcodes lines).take k)).mapping)).Nodup := by
    rw [hmapk]
    exact nodup_akeys_foldl_mapStep service _ [] (by simp [akeys])
  have hnfl : (akeys fl).Nodup := by
    rw [hmap] at hndk
    have hsplit : akeys (fl ++ (runLoop service (initState Option.none)
        ((readPostcodes lines).take k)).writeBuffer) =
        akeys fl ++ akeys (runLoop service (initState Option.none)
          ((readPostcodes lines).take k)).writeBuffer := by
      simp [akeys]
    rw [hsplit] at hndk
    exact (List.nodup_append.mp hndk).1
  have hload : loadMapping (runLoop service (initState Option.none)
      ((readPostcodes lines).take k)).fileRows = fl.map strOfEntry := by
    rw [hfile]
    exact loadMapping_of_rowOf fl hnfl
  have hcond : ∀ e : String × PyVal, e ∈ fl.map strOfEntry →
      e.1 ∈ readPostcodes lines ∧
      (fetch_postcode_id service e.1).truthy = true ∧
      pyStr e.2 = pyStr (fetch_postcode_id service e.1) := by
    intro e he
    obtain ⟨e0, he0, heq⟩ := List.mem_map.mp he
    have he0k : e0 ∈ ((readPostcodes lines).take k).foldl (mapStep service) [] := by
      rw [← hmapk, hmap]
      exact List.mem_append_left _ he0
    obtain ⟨hin, htr, hval⟩ := mem_final_mapping_fresh service _ e0 he0k
    have hin' : e0.1 ∈ readPostcodes lines := List.take_subset k _ hin
    rw [← heq]
    refine ⟨hin', htr, ?_⟩
    simp only [strOfEntry, pyStr]
    rw [hval]
  rw [runMapper_finalFile service _ lines, runMapper_finalFile service Option.none lines]
  have hinit2 : (initState (some (runLoop service (initState Option.none)
      ((readPostcodes lines).take k)).fileRows)).mapping = fl.map strOfEntry := hload
  rw [hinit2]
  have hinit0 : (initState (Option.none : Option (List (List String)))).mapping = [] :=
    rfl
  rw [hinit0]
  apply resume_same_final_file service (readPostcodes lines) _ ?_ hcond
  rw [akeys_map_strOf]
  exact hnfl
